import Mathlib

/-!
Verification development for the Helium table metadata engine
(server/src/routes/api/tables.queries.ts).

The definitions below are a shallow embedding of the TypeScript source:
pure helpers become Lean functions, catalog reads become explicit catalog
parameters, thrown JS errors become an explicit error type threaded through
Except, and the unbounded while-loop in the constraint resolver becomes a
fuel-indexed recursion (running out of fuel models non-termination of the
source loop).
-/

namespace Helium

/-! ## String utilities (models of JS String.includes / startsWith / endsWith,
SQL LIKE matching, and lexicographic string comparison on code points). -/

/-- Does the second list start with the first one? (model of a JS string
starting with a given lead). -/
def headMatch : List Char → List Char → Bool
  | [], _ => true
  | _ :: _, [] => false
  | a :: as, b :: bs => a = b && headMatch as bs

/-- Substring containment on character lists (model of JS String.includes). -/
def hasSubstr (needle : List Char) : List Char → Bool
  | [] => headMatch needle []
  | c :: rest => headMatch needle (c :: rest) || hasSubstr needle rest

/-- Model of JS hay.includes(needle). -/
def sIncludes (hay needle : String) : Bool := hasSubstr needle.data hay.data

/-- Model of JS hay.startsWith(lead). -/
def sStarts (hay lead : String) : Bool := headMatch lead.data hay.data

/-- Model of JS hay.endsWith(tail). -/
def sEnds (hay tail : String) : Bool := headMatch tail.data.reverse hay.data.reverse

/-- Lexicographic (code-point) strict order on character lists, as JS string
comparison behaves for the table names at hand. -/
def charListLt : List Char → List Char → Bool
  | [], [] => false
  | [], _ :: _ => true
  | _ :: _, [] => false
  | a :: as, b :: bs => a < b || (a = b && charListLt as bs)

/-- Strict lexicographic order on strings. -/
def strLt (a b : String) : Bool := charListLt a.data b.data

/-- First match in an association list (model of a JS object used as a map). -/
def assocLookup {α : Type} : List (String × α) → String → Option α
  | [], _ => none
  | (k, v) :: rest, key => if k = key then some v else assocLookup rest key

/-- SQL LIKE matching, fuel-indexed so that it is structurally recursive:
percent matches any sequence, underscore matches any single character,
anything else matches literally.  Every recursive call shrinks the combined
length of pattern and subject, so the fuel chosen by likeMatch below never
runs out.  The table-name patterns appearing in this development contain no
escape sequences, so the ESCAPE character is not modelled, nor is collation
case folding. -/
def likeMatchF : Nat → List Char → List Char → Bool
  | 0, _, _ => false
  | _ + 1, [], s => s.isEmpty
  | f + 1, p :: ps, s =>
    if p = '%' then
      likeMatchF f ps s ||
        (match s with
         | [] => false
         | _ :: t => likeMatchF f (p :: ps) t)
    else
      match s with
      | [] => false
      | c :: t => (if p = '_' then true else c = p) && likeMatchF f ps t

/-- SQL LIKE matching of a subject against a pattern. -/
def likeMatch (p s : List Char) : Bool := likeMatchF (p.length + s.length + 1) p s

/-- Attach a character to the head of the first group produced by a split. -/
def consHead (c : Char) : List (List Char) → List (List Char)
  | [] => [[c]]
  | g :: gs => (c :: g) :: gs

/-- Split a character list on the three-character separator quote-comma-quote,
exactly as the JS split on the enum value separator scans left to right.
Char.ofNat 39 is the single-quote character. -/
def splitEnumSep : List Char → List (List Char)
  | [] => [[]]
  | c :: c2 :: c3 :: rest2 =>
    if c = Char.ofNat 39 ∧ c2 = ',' ∧ c3 = Char.ofNat 39 then [] :: splitEnumSep rest2
    else consHead c (splitEnumSep (c2 :: c3 :: rest2))
  | c :: rest => consHead c (splitEnumSep rest)

/-! ## Data model (common/api interfaces as used by tables.queries.ts). -/

/-- Canonical column data kinds (TableDataType in common/api). -/
inductive TableDataType
  | string
  | integer
  | float
  | boolean
  | date
  | datetime
  | enum
  | blob
deriving DecidableEq, Repr

/-- Default value of a column (DefaultValue in common/api).  The JS code
applies parseInt / parseFloat / double-negated parseInt to the raw default
string; those applications are recorded symbolically here since no claim
depends on JS numeric parsing itself. -/
inductive DefaultValue
  | parsedInt (raw : String)
  | parsedFloat (raw : String)
  | boolOfParsedInt (raw : String)
  | literal (raw : String)
  | nullValue
  | namedConstant (name : String)
deriving DecidableEq, Repr

/-- Kind of a key constraint (ConstraintType in common/api). -/
inductive ConstraintType
  | primary
  | unique
  | foreign
deriving DecidableEq, Repr

/-- A key constraint row as produced by the constraints query: referenced
table/column are null for non-foreign rows. -/
structure Constraint where
  type : ConstraintType
  localColumn : String
  foreignTable : Option String
  foreignColumn : Option String
deriving DecidableEq, Repr

/-- Errors thrown by the embedded code.  outOfFuel is the budget exhaustion
of the fuel-indexed constraint walk: the source while-loop has no bound, so
an input on which every fuel value yields outOfFuel is an input on which the
source loop never terminates. -/
inductive JsError
  | unrecognizedType (raw : String)
  | couldNotFindConstraint (column : String)
  | expectingMatch (raw : String)
  | storeFailure (msg : String)
  | outOfFuel
deriving DecidableEq, Repr

/-- One INFORMATION_SCHEMA.columns row, restricted to the fields the header
mapping reads (plus TABLE_SCHEMA, used by the WHERE clause). -/
structure ColumnRow where
  tableSchema : String
  columnName : String
  ordinalPosition : Nat
  isNullable : String
  columnType : String
  columnComment : String
  tableName : String
  columnDefault : String
  characterMaximumLength : Int
  characterSetName : String
  numericPrecision : Int
  numericScale : Int
deriving DecidableEq, Repr

/-- One column's metadata (TableHeader in common/api). -/
structure TableHeader where
  name : String
  type : TableDataType
  isNumerical : Bool
  isTextual : Bool
  signed : Bool
  ordinalPosition : Nat
  rawType : String
  defaultValue : DefaultValue
  nullable : Bool
  maxCharacters : Int
  charset : String
  numericPrecision : Int
  numericScale : Int
  enumValues : Option (List String)
  comment : String
  tableName : String
deriving DecidableEq, Repr

/-- Aggregate table metadata (TableMeta in common/api); parts simplified to
raw table names, since the TableName class is outside the examined sources. -/
structure TableMeta where
  name : String
  headers : List TableHeader
  totalRows : Nat
  constraints : List Constraint
  comment : String
  parts : List String
deriving DecidableEq, Repr

/-! ## TypeInferencer (static helpers of TableDao). -/

/-- Modelled from the spec: the current-timestamp sentinel constant from
common/constants, which is outside the examined sources; its exact text is
irrelevant to every claim below. -/
def CURRENT_TIMESTAMP : String := "CURRENT_TIMESTAMP"

/-- TableDao.parseType: ordered rule match on the raw catalog type string. -/
def parseType (rawType : String) : Except JsError TableDataType :=
  if sIncludes rawType "tinyint(1)" then .ok .boolean
  else if sIncludes rawType "int" then .ok .integer
  else if sIncludes rawType "double" || sIncludes rawType "float" || sIncludes rawType "decimal" then
    .ok .float
  else if rawType = "date" then .ok .date
  else if rawType = "datetime" || rawType = "timestamp" then .ok .datetime
  else if sStarts rawType "enum" then .ok .enum
  else if sIncludes rawType "char" then .ok .string
  else if sIncludes rawType "blob" then .ok .blob
  else .error (.unrecognizedType rawType)

/-- The classification rules exactly as the specification words them: a
raw type containing tinyint(1) is boolean; else containing int, integer;
else containing any of double/float/decimal, float; exact match date;
exact match datetime or timestamp, datetime; starting with enum, enum;
containing char, string; containing blob, blob; no match fails with the
unrecognized-type error carrying the raw string. -/
def classifySpec (rawType : String) : Except JsError TableDataType :=
  if sIncludes rawType "tinyint(1)" then .ok .boolean
  else if sIncludes rawType "int" then .ok .integer
  else if ["double", "float", "decimal"].any (fun p => sIncludes rawType p) then .ok .float
  else if rawType = "date" then .ok .date
  else if ["datetime", "timestamp"].any (fun p => rawType = p) then .ok .datetime
  else if sStarts rawType "enum" then .ok .enum
  else if sIncludes rawType "char" then .ok .string
  else if sIncludes rawType "blob" then .ok .blob
  else .error (.unrecognizedType rawType)

/-- TableDao.identifyDefaultValue.  The trailing throw in the source is
unreachable because the switch covers the whole closed canonical type set,
so the Lean model is total. -/
def identifyDefaultValue (rawType : String) (type : TableDataType) (rawDefault : String) :
    DefaultValue :=
  if rawDefault = CURRENT_TIMESTAMP ∧ rawType = "datetime" then
    .namedConstant CURRENT_TIMESTAMP
  else
    match type with
    | .integer => .parsedInt rawDefault
    | .float => .parsedFloat rawDefault
    | .boolean => .boolOfParsedInt rawDefault
    | .string => .literal rawDefault
    | .enum => .literal rawDefault
    | .date => .literal rawDefault
    | .datetime => .literal rawDefault
    | .blob => .nullValue

/-- The capture group of the enum value pattern: everything strictly between
the 6-character lead and the 2-character tail. -/
def enumMiddle (raw : String) : List Char :=
  (raw.data.drop 6).take (raw.data.length - 8)

/-- Does raw match the anchored JS pattern enum, open parenthesis, quote,
any dot-matched characters, quote, close parenthesis?  The dot excludes the
four JS line terminators. -/
def enumPatternMatches (raw : String) : Bool :=
  sStarts raw "enum('" && sEnds raw "')" && decide (8 ≤ raw.data.length) &&
    (enumMiddle raw).all (fun ch =>
      !(ch == Char.ofNat 10 || ch == Char.ofNat 13 || ch == Char.ofNat 8232 ||
        ch == Char.ofNat 8233))

/-- TableDao.findEnumValues: none unless the raw type starts with enum and an
open parenthesis; then the full pattern must match (else the source throws),
and the capture is split on the quote-comma-quote separator. -/
def findEnumValues (raw : String) : Except JsError (Option (List String)) :=
  if sStarts raw "enum(" = false then .ok none
  else if enumPatternMatches raw then .ok (some ((splitEnumSep (enumMiddle raw)).map String.mk))
  else .error (.expectingMatch raw)

deriving instance DecidableEq for Except

/-! ## Header assembly (TableDao.headers). -/

/-- The body of the row-to-header mapping in TableDao.headers, in source
evaluation order: parseType may throw first, then the default value is
computed, then findEnumValues may throw while the header object is built. -/
def mkHeader (row : ColumnRow) : Except JsError TableHeader :=
  match parseType row.columnType with
  | .error e => .error e
  | .ok type =>
    let rawType := row.columnType
    let isNumerical := type == TableDataType.integer || type == TableDataType.float
    let defaultValue := identifyDefaultValue rawType type row.columnDefault
    match findEnumValues row.columnType with
    | .error e => .error e
    | .ok enumVals =>
      .ok {
        name := row.columnName
        type := type
        isNumerical := isNumerical
        isTextual := !isNumerical
        signed := isNumerical && !(sIncludes rawType "unsigned")
        ordinalPosition := row.ordinalPosition
        rawType := rawType
        defaultValue := defaultValue
        nullable := row.isNullable == "YES"
        maxCharacters := row.characterMaximumLength
        charset := row.characterSetName
        numericPrecision := row.numericPrecision
        numericScale := row.numericScale
        enumValues := enumVals
        comment := row.columnComment
        tableName := row.tableName
      }

/-- Stable insertion of a row into a list ordered by ordinal position. -/
def insertByOrdinal (r : ColumnRow) : List ColumnRow → List ColumnRow
  | [] => [r]
  | x :: xs =>
    if r.ordinalPosition < x.ordinalPosition then r :: x :: xs
    else x :: insertByOrdinal r xs

/-- ORDER BY ORDINAL_POSITION over the selected catalog rows. -/
def sortByOrdinal (l : List ColumnRow) : List ColumnRow := l.foldr insertByOrdinal []

/-- Map catalog rows to headers, stopping at the first thrown error (the JS
map throws out of the whole call). -/
def mapHeaderRows : List ColumnRow → Except JsError (List TableHeader)
  | [] => .ok []
  | r :: rest =>
    match mkHeader r with
    | .error e => .error e
    | .ok h =>
      match mapHeaderRows rest with
      | .error e => .error e
      | .ok hs => .ok (h :: hs)

/-- TableDao.headers over an explicit catalog of INFORMATION_SCHEMA.columns
rows: WHERE TABLE_SCHEMA = schema AND TABLE_NAME LIKE name, ordered by
ordinal position, then mapped to TableHeader records.  Note the table name
is compared with LIKE, not equality. -/
def headers (catalog : List ColumnRow) (schema name : String) :
    Except JsError (List TableHeader) :=
  mapHeaderRows (sortByOrdinal (catalog.filter
    (fun r => r.tableSchema == schema && likeMatch name.data r.tableName.data)))

/-! ## Constraint resolution (TableDao.resolveConstraints). -/

/-- Lodash find over a constraint list by local column, as in the inner
findConstraint helper (without the throw, which the caller model performs). -/
def findConstraintOpt (localColumn : String) : List Constraint → Option Constraint
  | [] => none
  | c :: rest => if c.localColumn = localColumn then some c else findConstraintOpt localColumn rest

/-- Per-call resolver state: the cache object and the list of tables fetched
from the store so far (the fetch log witnesses each catalog round-trip). -/
structure ResolveSt where
  cache : List (String × List Constraint)
  fetchLog : List String
deriving DecidableEq, Repr

/-- The getConstraints closure of resolveConstraints: serve from cache when
present, otherwise fetch from the catalog.  Exactly as in the source, the
cache is only ever read — no branch writes a fetched list back into it. -/
def getConstraints (catalog : String → List Constraint) (st : ResolveSt) (table : String) :
    List Constraint × ResolveSt :=
  match assocLookup st.cache table with
  | some cs => (cs, st)
  | none => (catalog table, { st with fetchLog := st.fetchLog ++ [table] })

/-- The while-loop walking one foreign-key chain: stop when the current
constraint is primary and return the previous link; otherwise fetch the
referenced table's constraints and look up the referenced column, throwing
when it is absent.  The source loop is unbounded; fuel indexes the number of
iterations this model is willing to simulate. -/
def walkChain (catalog : String → List Constraint) :
    Nat → Constraint → Option Constraint → ResolveSt →
    Except JsError (Option Constraint × ResolveSt)
  | 0, _, _, _ => .error .outOfFuel
  | fuel + 1, current, previous, st =>
    if current.type = ConstraintType.primary then .ok (previous, st)
    else
      match getConstraints catalog st (current.foreignTable.getD "") with
      | (cs, st2) =>
        match findConstraintOpt (current.foreignColumn.getD "") cs with
        | none => .error (.couldNotFindConstraint (current.foreignColumn.getD ""))
        | some next => walkChain catalog fuel next (some current) st2

/-- The for-loop of resolveConstraints: non-foreign constraints pass through
unchanged; each foreign constraint is walked to the link just before the
primary key, which is appended to the result. -/
def resolveAux (catalog : String → List Constraint) (fuel : Nat) :
    List Constraint → List Constraint → ResolveSt →
    Except JsError (List Constraint × ResolveSt)
  | [], acc, st => .ok (acc, st)
  | c :: rest, acc, st =>
    if c.type = ConstraintType.foreign then
      match walkChain catalog fuel c none st with
      | .error e => .error e
      | .ok (prev, st2) => resolveAux catalog fuel rest (acc ++ prev.toList) st2
    else
      resolveAux catalog fuel rest (acc ++ [c]) st

/-- TableDao.resolveConstraints over an explicit per-table constraint
catalog, starting from an empty cache and empty fetch log; returns the
resolved constraints together with the log of store fetches performed. -/
def resolveConstraints (catalog : String → List Constraint) (fuel : Nat)
    (originals : List Constraint) : Except JsError (List Constraint × List String) :=
  match resolveAux catalog fuel originals [] ⟨[], []⟩ with
  | .error e => .error e
  | .ok (resolved, st) => .ok (resolved, st.fetchLog)

/-! ## Metadata assembly (TableDao.meta). -/

/-- Modelled from the spec: part tables extend their master's name with the
double-underscore marker seen in the specification's orders__detail example
(the TableName class and unflattenTableNames are outside the examined
sources).  Only used to populate TableMeta.parts, which no claim inspects. -/
def partsOf (allTables : List String) (table : String) : List String :=
  allTables.filter (fun t => sStarts t (table ++ "__"))

/-- TableDao.meta: join the header query and the constraint fetch plus
resolution into one aggregate record.  The store-provided scalars (table
list, row count, comment) are passed in as values; the all-or-nothing join
of the concurrent fetches is modelled by Except propagation, so no partial
TableMeta can be produced once any fetch fails. -/
def meta (colCatalog : List ColumnRow) (constraintCatalog : String → List Constraint)
    (allTables : List String) (count : Nat) (tableComment : String) (fuel : Nat)
    (schema table : String) : Except JsError TableMeta :=
  match headers colCatalog schema table with
  | .error e => .error e
  | .ok hs =>
    match resolveConstraints constraintCatalog fuel (constraintCatalog table) with
    | .error e => .error e
    | .ok (cs, _) =>
      .ok {
        name := table
        headers := hs
        totalRows := count
        constraints := cs
        comment := tableComment
        parts := partsOf allTables table
      }

/-! ## Insert orchestration (TableDao.insertRow). -/

/-- A loosely typed SQL value as submitted through the validator. -/
inductive Value
  | boolV (b : Bool)
  | intV (n : Int)
  | strV (s : String)
  | nullV
deriving DecidableEq, Repr

/-- One prepared row: column name to value bindings. -/
abbrev Row := List (String × Value)

/-- Modelled from the spec: the store helper's identifier escaping, which
quotes a name (its exact quoting is irrelevant to the claims below). -/
def escapeId (s : String) : String := "`" ++ s ++ "`"

/-- TableDao.prepareValue: booleans become the integers one and zero, all
other values pass through unchanged. -/
def prepareValue : Value → Value
  | .boolV b => .intV (if b then 1 else 0)
  | v => v

/-- TableDao.prepareForInsert: escape every column name and transform every
value. -/
def prepareForInsert (validated : Row) : Row :=
  validated.map (fun kv => (escapeId kv.1, prepareValue kv.2))

/-- One INSERT statement issued inside the transaction: the escaped target
it is aimed at and the prepared rows it sets. -/
structure InsertOp where
  target : String
  rows : List Row
deriving DecidableEq, Repr

/-- Stable insertion for the lexicographic sort of target table names. -/
def insertName (x : String) : List String → List String
  | [] => [x]
  | y :: ys => if strLt x y then x :: y :: ys else y :: insertName x ys

/-- Lodash sortBy over the keys of the validated data. -/
def sortNames (l : List String) : List String := l.foldr insertName []

/-- The insert loop body: for each sorted name, prepare that name's rows and
issue one INSERT; exactly as in the source, the statement is built against
the escaped schema and the escaped *table parameter*, not the loop name.
The store decides whether each INSERT succeeds. -/
def runInsertsGo (store : InsertOp → Except JsError Unit) (schema table : String)
    (preparedData : List (String × List Row)) :
    List String → List InsertOp → Except JsError (List InsertOp)
  | [], acc => .ok acc
  | name :: rest, acc =>
    let rows := ((assocLookup preparedData name).getD []).map prepareForInsert
    let op : InsertOp := ⟨escapeId schema ++ "." ++ escapeId table, rows⟩
    match store op with
    | .error e => .error e
    | .ok _ => runInsertsGo store schema table preparedData rest (acc ++ [op])

/-- The body of the transaction inside TableDao.insertRow: sort the target
names, then insert each name's rows in sequence. -/
def runInserts (store : InsertOp → Except JsError Unit) (schema table : String)
    (preparedData : List (String × List Row)) : Except JsError (List InsertOp) :=
  runInsertsGo store schema table preparedData (sortNames (preparedData.map (fun kv => kv.1))) []

/-- TableDao.insertRow after validation, over an initial committed state.
Modelled from the spec: the store helper's transaction commits the work's
effects on success and rolls every effect back on error, so the committed
state is either extended by all issued inserts or left untouched. -/
def insertRow (store : InsertOp → Except JsError Unit) (schema table : String)
    (preparedData : List (String × List Row)) (s0 : List InsertOp) :
    List InsertOp × Except JsError Unit :=
  match runInserts store schema table preparedData with
  | .ok ops => (s0 ++ ops, .ok ())
  | .error e => (s0, .error e)

/-! ## Concrete catalogs and inputs used by the theorems below. -/

/-- A.foo referencing B.bar. -/
def aFoo : Constraint := ⟨.foreign, "foo", some "B", some "bar"⟩

/-- B.bar referencing C.baz. -/
def bBar : Constraint := ⟨.foreign, "bar", some "C", some "baz"⟩

/-- C.baz backed by the primary key. -/
def cBaz : Constraint := ⟨.primary, "baz", none, none⟩

/-- Constraint catalog for the three-table chain A.foo to B.bar to C.baz. -/
def cat1 : String → List Constraint :=
  fun t => if t = "B" then [bBar] else if t = "C" then [cBaz] else []

/-- First of two foreign constraints referencing the same table B. -/
def c5a : Constraint := ⟨.foreign, "foo", some "B", some "bar"⟩

/-- Second foreign constraint referencing the same table B. -/
def c5b : Constraint := ⟨.foreign, "qux", some "B", some "bar"⟩

/-- Catalog where table B's column bar is a primary key. -/
def cat5 : String → List Constraint :=
  fun t => if t = "B" then [⟨.primary, "bar", none, none⟩] else []

/-- A foreign constraint whose referenced column dangles. -/
def cw : Constraint := ⟨.foreign, "foo", some "B", some "bar"⟩

/-- Catalog where table B has no constraint rows at all, so cw dangles. -/
def catW : String → List Constraint := fun t => if t = "A" then [cw] else []

/-- Half of a two-table foreign-key cycle: A.x referencing B.y. -/
def cycA : Constraint := ⟨.foreign, "x", some "B", some "y"⟩

/-- The other half of the cycle: B.y referencing A.x. -/
def cycB : Constraint := ⟨.foreign, "y", some "A", some "x"⟩

/-- A catalog whose foreign-key records form a cycle with no primary key. -/
def cyclicCatalog : String → List Constraint :=
  fun t => if t = "A" then [cycA] else if t = "B" then [cycB] else []

/-- A store on which every INSERT succeeds. -/
def okStore : InsertOp → Except JsError Unit := fun _ => .ok ()

/-- Validated data touching a master table and one of its part tables. -/
def demoPrepared : List (String × List Row) :=
  [("orders__detail", [[("b", .intV 2)]]), ("orders", [[("a", .intV 1)]])]

/-- A store failing exactly on the INSERT carrying the part-table row. -/
def failStore : InsertOp → Except JsError Unit :=
  fun op => if op.rows = [[("`b`", Value.intV 2)]] then .error (.storeFailure "dup") else .ok ()

/-- Catalog column row of a table literally named with an underscore. -/
def r10a : ColumnRow := ⟨"s", "c1", 1, "NO", "int(11)", "", "a_b", "0", 0, "", 10, 0⟩

/-- Catalog column row of a second table matched by the same LIKE pattern. -/
def r10b : ColumnRow := ⟨"s", "c2", 2, "NO", "int(11)", "", "axb", "0", 0, "", 10, 0⟩

/-- A catalog row whose raw type is an enum wrapping the literal value int. -/
def rowTrap : ColumnRow := ⟨"s", "col", 1, "YES", "enum('int')", "", "t", "0", 0, "", 0, 0⟩

/-- The header the row above produces: an integer-typed header that still
carries enum values. -/
def hTrap : TableHeader :=
  ⟨"col", .integer, true, false, true, 1, "enum('int')", .parsedInt "0", true, 0, "", 0, 0,
    some ["int"], "", "t"⟩

/-- A well-behaved enum catalog row. -/
def rowE : ColumnRow := ⟨"s", "col", 1, "YES", "enum('a','b')", "", "t", "x", 0, "utf8", 0, 0⟩

/-- The header produced from rowE. -/
def hRowE : TableHeader :=
  ⟨"col", .enum, false, true, false, 1, "enum('a','b')", .literal "x", true, 0, "utf8", 0, 0,
    some ["a", "b"], "", "t"⟩

/-! ## Claim theorems. -/

/-- C1: for the chain A.foo referencing B.bar, B.bar referencing C.baz and
C.baz primary, resolveConstraints returns a single foreign constraint — but
it is the intermediate link with localColumn bar (target already normalized
to C.baz), not the claimed original local column foo: the loop emits the
link examined just before the primary key, and after two hops that link is
B's record, so the original local column is lost. -/
theorem resolveConstraints_chain_emits_intermediate_link :
    resolveConstraints cat1 10 [aFoo] =
      .ok ([⟨ConstraintType.foreign, "bar", some "C", some "baz"⟩], ["B", "C"]) ∧
    (⟨ConstraintType.foreign, "bar", some "C", some "baz"⟩ : Constraint).localColumn ≠ "foo" := by
  decide

/-- C2: insertRow does iterate the validated target names in lexicographic
order, but every prepared row group is inserted into the escaped *table
parameter*: with data touching both orders and orders__detail, both INSERT
statements target the orders table and none targets orders__detail. -/
theorem insertRow_targets_table_parameter_only :
    insertRow okStore "s" "orders" demoPrepared [] =
      ([⟨"`s`.`orders`", [[("`a`", Value.intV 1)]]⟩, ⟨"`s`.`orders`", [[("`b`", Value.intV 2)]]⟩],
        .ok ()) ∧
    escapeId "s" ++ "." ++ escapeId "orders" ≠ escapeId "s" ++ "." ++ escapeId "orders__detail" := by
  decide

/-- Helper for C3: on the two-table cyclic catalog the chain walk starting
from either constraint exhausts any amount of fuel, whatever the previous
link and fetch log are — the source while-loop never terminates there. -/
theorem walkChain_cyclic_diverges (fuel : Nat) : ∀ (prev : Option Constraint) (fl : List String),
    walkChain cyclicCatalog fuel cycA prev ⟨[], fl⟩ = .error .outOfFuel ∧
    walkChain cyclicCatalog fuel cycB prev ⟨[], fl⟩ = .error .outOfFuel := by
  induction fuel with
  | zero => intro prev fl; exact ⟨rfl, rfl⟩
  | succ n ih =>
    intro prev fl
    constructor
    · have step : walkChain cyclicCatalog (n + 1) cycA prev ⟨[], fl⟩ =
          walkChain cyclicCatalog n cycB (some cycA) ⟨[], fl ++ ["B"]⟩ := rfl
      rw [step]
      exact (ih (some cycA) (fl ++ ["B"])).2
    · have step : walkChain cyclicCatalog (n + 1) cycB prev ⟨[], fl⟩ =
          walkChain cyclicCatalog n cycA (some cycB) ⟨[], fl ++ ["A"]⟩ := rfl
      rw [step]
      exact (ih (some cycB) (fl ++ ["A"])).1

/-- C3: resolveConstraints is claimed to terminate on every catalog, with a
bounded walk failing broken chains; on the concrete cyclic catalog the walk
instead exhausts every fuel bound, i.e. the unbounded source loop runs
forever rather than raising a broken-foreign-key error. -/
theorem resolveConstraints_cycle_exhausts_every_fuel :
    ∀ fuel : Nat, resolveConstraints cyclicCatalog fuel [cycA] = .error .outOfFuel := by
  intro fuel
  have h := (walkChain_cyclic_diverges fuel none []).1
  have h2 : resolveAux cyclicCatalog fuel [cycA] [] ⟨[], []⟩ = .error .outOfFuel := by
    simp only [resolveAux]
    rw [if_pos (show cycA.type = ConstraintType.foreign from rfl), h]
  simp [resolveConstraints, h2]

/-- C4: when a foreign constraint's referenced column has no matching
constraint record in the referenced table's list, resolveConstraints fails
with the error naming the dangling column, and the metadata assembly for
that table yields an error rather than any partial TableMeta. -/
theorem resolveConstraints_dangling_column_fails
    (catalog : String → List Constraint) (c : Constraint) (rest : List Constraint)
    (colCatalog : List ColumnRow) (allTables : List String) (count : Nat)
    (tableComment : String) (fuel : Nat) (schema table : String)
    (hforeign : c.type = ConstraintType.foreign)
    (hdangle : findConstraintOpt (c.foreignColumn.getD "") (catalog (c.foreignTable.getD "")) = none)
    (htable : catalog table = c :: rest) :
    resolveConstraints catalog (fuel + 1) (c :: rest) =
      .error (.couldNotFindConstraint (c.foreignColumn.getD "")) ∧
    ∃ e, meta colCatalog catalog allTables count tableComment (fuel + 1) schema table =
      .error e := by
  have hwalk : walkChain catalog (fuel + 1) c none ⟨[], []⟩ =
      .error (.couldNotFindConstraint (c.foreignColumn.getD "")) := by
    simp only [walkChain]
    rw [hforeign]
    simp [getConstraints, assocLookup, hdangle]
  have hres : resolveConstraints catalog (fuel + 1) (c :: rest) =
      .error (.couldNotFindConstraint (c.foreignColumn.getD "")) := by
    simp only [resolveConstraints, resolveAux]
    rw [if_pos hforeign, hwalk]
  refine ⟨hres, ?_⟩
  cases hh : headers colCatalog schema table with
  | error e => exact ⟨e, by simp [meta, hh]⟩
  | ok hs =>
    exact ⟨JsError.couldNotFindConstraint (c.foreignColumn.getD ""),
      by simp [meta, hh, htable, hres]⟩

/-- Witness for C4 at the concrete dangling catalog. -/
theorem resolveConstraints_dangling_column_fails_witness :
    resolveConstraints catW 1 [cw] = .error (.couldNotFindConstraint "bar") ∧
    ∃ e, meta [] catW [] 0 "" 1 "s" "A" = .error e :=
  resolveConstraints_dangling_column_fails catW cw [] [] [] 0 "" 0 "s" "A"
    (by decide) (by decide) (by decide)

/-- C5: resolveConstraints is claimed to fetch each referenced table's raw
constraint list at most once per call; on a catalog where two foreign
constraints reference the same table B, the fetch log records two store
round-trips for B — the cache is consulted but never populated, so every
lookup reaches the store. -/
theorem resolveConstraints_refetches_same_table :
    resolveConstraints cat5 10 [c5a, c5b] = .ok ([c5a, c5b], ["B", "B"]) ∧
    (["B", "B"] : List String).count "B" = 2 := by
  decide

/-- C6: parseType applies exactly the documented ordered classification
rules, including failing with the unrecognized-type error carrying the raw
string on strings matching none of them: it agrees with the rule list
transcribed verbatim from the specification on every input. -/
theorem parseType_follows_documented_rules (raw : String) : parseType raw = classifySpec raw := by
  unfold parseType classifySpec
  simp only [List.any_cons, List.any_nil, Bool.or_false, Bool.or_assoc]

/-- C7: if any step inside the insertRow transaction fails, the committed
state afterwards is exactly the state before the call — no row from any
target table of the submission becomes visible. -/
theorem insertRow_rolls_back_on_failure (store : InsertOp → Except JsError Unit)
    (schema table : String) (preparedData : List (String × List Row)) (s0 : List InsertOp)
    (e : JsError) (hfail : runInserts store schema table preparedData = .error e) :
    insertRow store schema table preparedData s0 = (s0, .error e) := by
  unfold insertRow
  rw [hfail]

/-- Witness for C7: the second INSERT of a two-table submission fails and
the committed state stays exactly the initial one. -/
theorem insertRow_rolls_back_on_failure_witness :
    insertRow failStore "s" "orders" demoPrepared [⟨"pre", []⟩] =
      ([⟨"pre", []⟩], .error (.storeFailure "dup")) :=
  insertRow_rolls_back_on_failure failStore "s" "orders" demoPrepared [⟨"pre", []⟩]
    (.storeFailure "dup") (by decide)

/-- Counterexample for C8: the raw type enum wrapping the literal value int
is classified integer (the int rule fires before the enum rule) while the
enum value extractor still returns a non-null list, so the produced header
has a non-enum type with non-null enumValues, refuting the claimed
invariant that enumValues is non-null iff the type is enum. -/
theorem header_enum_invariant_counterexample :
    mkHeader rowTrap = .ok hTrap ∧ hTrap.type ≠ TableDataType.enum ∧
    hTrap.enumValues ≠ none := by
  decide

/-- C8 as amended: for every header that the row mapping actually produces,
enumValues is non-null iff the raw catalog type starts with enum and an
open parenthesis (which coincides with the canonical type being enum except
when an earlier classification rule, such as the int rule, fires on the
enum's literal values, or when an enum-prefixed raw type lacks the
parenthesized value list). -/
theorem header_enumValues_iff_enum_paren (row : ColumnRow) (h : TableHeader)
    (hmk : mkHeader row = .ok h) :
    (h.enumValues ≠ none ↔ sStarts h.rawType "enum(" = true) := by
  unfold mkHeader at hmk
  split at hmk
  · exact absurd hmk (by simp)
  · split at hmk
    · exact absurd hmk (by simp)
    · rename_i type hp enumVals hf
      injection hmk with hh
      subst hh
      simp only
      unfold findEnumValues at hf
      split at hf
      · rename_i hcond
        injection hf with hv
        subst hv
        simp [hcond]
      · split at hf
        · rename_i hcond _
          injection hf with hv
          subst hv
          have ht : sStarts row.columnType "enum(" = true := by
            cases hb : sStarts row.columnType "enum(" with
            | false => exact absurd hb hcond
            | true => rfl
          simp [ht]
        · exact absurd hf (by simp)

/-- Witness for the amended C8 on a well-formed enum header. -/
theorem header_enumValues_iff_enum_paren_witness :
    hRowE.enumValues ≠ none ↔ sStarts hRowE.rawType "enum(" = true :=
  header_enumValues_iff_enum_paren rowE hRowE (by decide)

/-- C9: a timestamp column classifies as datetime, yet its current-timestamp
default does not produce the named-constant variant — that branch requires
the raw type to be exactly datetime — so the sentinel falls through the
datetime case of the switch and comes back as the raw string literal, which
is never the named-constant variant. -/
theorem timestamp_current_default_is_literal :
    parseType "timestamp" = .ok TableDataType.datetime ∧
    identifyDefaultValue "timestamp" TableDataType.datetime CURRENT_TIMESTAMP =
      DefaultValue.literal CURRENT_TIMESTAMP ∧
    ∀ s : String, DefaultValue.literal CURRENT_TIMESTAMP ≠ DefaultValue.namedConstant s := by
  refine ⟨by decide, by decide, fun s => by simp⟩

/-- C10: headers filters catalog columns with LIKE on the table name, so on
a catalog holding tables a_b and axb — both matched by the pattern a_b,
whose underscore is a single-character wildcard — headers, and therefore
meta, returns the combined column list of both tables rather than only the
named table's columns. -/
theorem headers_like_combines_matching_tables :
    (headers [r10a, r10b] "s" "a_b").map (fun hs => hs.map (fun h => h.tableName)) =
      .ok ["a_b", "axb"] ∧
    (meta [r10a, r10b] (fun _ => []) [] 0 "" 1 "s" "a_b").map
      (fun m => m.headers.map (fun h => h.tableName)) = .ok ["a_b", "axb"] ∧
    "axb" ≠ "a_b" := by
  decide

end Helium
